import Mathlib

/-!
Shallow embedding of the settlement and authorization engine of the
auction-house program (src/auction-house/program/src/utils.rs) together with
the creator-list validation of the token-metadata program
(src/token-metadata/program/src/utils.rs).

Machine integers are modelled as Nat with explicit bounds: a u64 value is a
Nat below U64 and wrapping casts reduce modulo U64; checked arithmetic is
modelled by explicit bound tests that return the corresponding error.
External collaborators (the SHA-based program-address derivation, the SPL
token-account byte parser, the associated-token-address derivation and the
rent sysvar) are passed in as explicit function parameters, so every theorem
quantifies over them.
-/

/-- Modulus of the 64-bit unsigned integers used for lamport and token
amounts. -/
def U64 : Nat := 2 ^ 64

/-- Modulus of the 128-bit unsigned integers used for the wide multiplications
in the fee computations. -/
def U128 : Nat := 2 ^ 128

/-- Addresses (Solana Pubkeys, 32 raw bytes) are modelled as naturals; only
equality of addresses is ever inspected by the embedded code. -/
abbrev Pubkey := Nat

/-- Error kinds of the auction-house program that the embedded functions can
surface (AuctionHouseError plus the ProgramError variants used by
utils.rs). -/
inductive AHErr where
  | PublicKeyMismatch
  | DerivedKeyInvalid
  | NumericalOverflow
  | InsufficientFunds
  | InvalidAuctioneer
  | MissingAuctioneerScope
  | ExpectedSolAccount
  | SOLWalletMustSign
  | InvalidAccountData
  | UninitializedAccount
  | IncorrectOwner
  | CannotTakeThisActionWithoutAuctionHouseSignOff
  | NoPayerPresent
  | NotEnoughAccountKeys
  deriving DecidableEq, Repr

/-- Error kinds of the token-metadata program used by assert_data_valid. -/
inductive MErr where
  | NameTooLong
  | SymbolTooLong
  | UriTooLong
  | InvalidBasisPoints
  | CreatorsTooLong
  | CreatorsMustBeAtleastOne
  | DuplicateCreatorAddress
  | NumericalOverflowError
  | CannotVerifyAnotherCreator
  | CannotUnverifyAnotherCreator
  | ShareTotalMustBe100
  deriving DecidableEq, Repr

/-- Parsed SPL token account state (spl_token::state::Account), restricted to
the fields the embedded code reads. -/
structure SplAccount where
  mint : Pubkey
  owner : Pubkey
  delegate : Option Pubkey
  delegated_amount : Nat
  initialized : Bool
  deriving DecidableEq, Repr

/-- View of a Solana AccountInfo restricted to what utils.rs reads: the
address, the owning program, the signer flag, the lamport balance, the data
length, whether the data is empty, and the result of structurally parsing the
data as an SPL token account (none when the bytes do not parse; the
byte-level parser itself is an external collaborator). -/
structure AccountInfo where
  key : Pubkey
  owner : Pubkey
  is_signer : Bool
  lamports : Nat
  data_len : Nat
  data_empty : Bool
  parsed : Option SplAccount
  deriving DecidableEq, Repr

/-- SplAccount::unpack: the structural parse must succeed and the account must
be initialized, otherwise unpack errors (the two failure causes are not
distinguished by the callers in utils.rs, which only match on Ok/Err). -/
def spl_unpack (a : AccountInfo) : Option SplAccount :=
  match a.parsed with
  | some t => if t.initialized then some t else none
  | none => none

/-- Number of entries of the auction-house capability bitmap
(constants::MAX_NUM_SCOPES of the crate; the constants module is outside the
provided sources — the spec describes the bitmap as a fixed-size boolean
array indexed by a closed scope enumeration). -/
def MAX_NUM_SCOPES : Nat := 7

/-- AuthorityScope: index into the capability bitmap; the Rust enum is cast
with `as usize` before indexing, so the model works with the index
directly. -/
abbrev AuthorityScope := Fin MAX_NUM_SCOPES

/-- AuctionHouse account state restricted to the fields utils.rs reads,
together with the address of the account itself (`key()` in anchor). -/
structure AuctionHouse where
  key : Pubkey
  treasury_mint : Pubkey
  seller_fee_basis_points : Nat
  requires_sign_off : Bool
  auctioneer_address : Pubkey
  scopes : AuthorityScope → Bool

/-- Auctioneer delegation-record account state, with the address of the
account itself. -/
structure Auctioneer where
  key : Pubkey
  auctioneer_authority : Pubkey
  auction_house : Pubkey

/-- assert_keys_equal: byte-compare two addresses, PublicKeyMismatch when they
differ. -/
def assert_keys_equal (key1 key2 : Pubkey) : Except AHErr Unit :=
  if key1 = key2 then Except.ok () else Except.error AHErr.PublicKeyMismatch

/-- get_fee_payer: the auction-house authority signer takes precedence and
pays from the fee account with the auction-house seeds; otherwise a signing
wallet pays for itself (with no seeds) unless the house requires sign-off;
otherwise there is no payer. -/
def get_fee_payer (authority : AccountInfo) (auction_house : AuctionHouse)
    (wallet auction_house_fee_account : AccountInfo)
    (auction_house_seeds : List (List Nat)) :
    Except AHErr (AccountInfo × List (List Nat)) :=
  if authority.is_signer then
    Except.ok (auction_house_fee_account, auction_house_seeds)
  else if wallet.is_signer then
    if auction_house.requires_sign_off then
      Except.error AHErr.CannotTakeThisActionWithoutAuctionHouseSignOff
    else
      Except.ok (wallet, [])
  else
    Except.error AHErr.NoPayerPresent

/-- verify_withdrawal: checked subtraction of the amount from the lamport
balance (underflow is InsufficientFunds), then the saturating difference to
the rent minimum for the account's data length; the rent function is the
external minimum-balance collaborator. -/
def verify_withdrawal (minimum_balance : Nat → Nat) (account : AccountInfo)
    (amount : Nat) : Except AHErr Nat :=
  let rent_minimum := minimum_balance account.data_len
  if amount ≤ account.lamports then
    Except.ok (rent_minimum - (account.lamports - amount))
  else
    Except.error AHErr.InsufficientFunds

/-- verify_deposit: checked u64 addition of the amount to the lamport balance
(overflow is NumericalOverflow), then the saturating difference to the rent
minimum. -/
def verify_deposit (minimum_balance : Nat → Nat) (account : AccountInfo)
    (amount : Nat) : Except AHErr Nat :=
  let rent_minimum := minimum_balance account.data_len
  if account.lamports + amount < U64 then
    Except.ok (rent_minimum - (account.lamports + amount))
  else
    Except.error AHErr.NumericalOverflow

/-- assert_valid_auctioneer_and_scope: the house must reference the
delegation record, the record must reference the delegated authority and the
house back (each mismatch mapped to InvalidAuctioneer), and the house's
capability bitmap must have the required scope set. -/
def assert_valid_auctioneer_and_scope (auction_house_instance : AuctionHouse)
    (auctioneer_authority : Pubkey) (auctioneer_pda : Auctioneer)
    (scope : AuthorityScope) : Except AHErr Unit :=
  match assert_keys_equal auction_house_instance.auctioneer_address auctioneer_pda.key with
  | Except.error _ => Except.error AHErr.InvalidAuctioneer
  | Except.ok _ =>
  match assert_keys_equal auctioneer_pda.auctioneer_authority auctioneer_authority with
  | Except.error _ => Except.error AHErr.InvalidAuctioneer
  | Except.ok _ =>
  match assert_keys_equal auctioneer_pda.auction_house auction_house_instance.key with
  | Except.error _ => Except.error AHErr.InvalidAuctioneer
  | Except.ok _ =>
  if !(auction_house_instance.scopes scope) then
    Except.error AHErr.MissingAuctioneerScope
  else
    Except.ok ()

/-- assert_scopes_eq: every listed scope must be set in the bitmap, failing
fast with MissingAuctioneerScope on the first unset bit. -/
def assert_scopes_eq (scopes : List AuthorityScope)
    (scopes_array : AuthorityScope → Bool) : Except AHErr Unit :=
  match scopes with
  | [] => Except.ok ()
  | scope :: rest =>
    if !scopes_array scope then
      Except.error AHErr.MissingAuctioneerScope
    else
      assert_scopes_eq rest scopes_array

/-- C4: verify_withdrawal fails with InsufficientFunds exactly when the amount
exceeds the balance and otherwise returns max(0, rent_minimum - (balance -
amount)); verify_deposit fails with NumericalOverflow exactly when the u64
addition overflows and otherwise returns max(0, rent_minimum - (balance +
amount)). -/
theorem verify_withdrawal_deposit_boundary
    (minimum_balance : Nat → Nat) (account : AccountInfo) (amount : Nat) :
    (account.lamports < amount →
      verify_withdrawal minimum_balance account amount
        = Except.error AHErr.InsufficientFunds) ∧
    (amount ≤ account.lamports →
      verify_withdrawal minimum_balance account amount
        = Except.ok (minimum_balance account.data_len - (account.lamports - amount)) ∧
      ((minimum_balance account.data_len - (account.lamports - amount) : Nat) : Int)
        = max 0 ((minimum_balance account.data_len : Int)
            - ((account.lamports : Int) - (amount : Int)))) ∧
    (U64 ≤ account.lamports + amount →
      verify_deposit minimum_balance account amount
        = Except.error AHErr.NumericalOverflow) ∧
    (account.lamports + amount < U64 →
      verify_deposit minimum_balance account amount
        = Except.ok (minimum_balance account.data_len - (account.lamports + amount)) ∧
      ((minimum_balance account.data_len - (account.lamports + amount) : Nat) : Int)
        = max 0 ((minimum_balance account.data_len : Int)
            - ((account.lamports : Int) + (amount : Int)))) := by
  refine ⟨?_, ?_, ?_, ?_⟩
  · intro h
    simp [verify_withdrawal, Nat.not_le.mpr h]
  · intro h
    constructor
    · simp [verify_withdrawal, h]
    · omega
  · intro h
    simp [verify_deposit, Nat.not_lt.mpr h]
  · intro h
    constructor
    · simp [verify_deposit, h]
    · omega

/-- C4 witness: balance 500, data length 0 with rent minimum 800, withdrawing
600 fails; withdrawing 100 leaves 400 and asks for 400 more; depositing
2^64 overflows; depositing 100 asks for 200 more. -/
theorem verify_withdrawal_deposit_boundary_witness :
    (let mb : Nat → Nat := fun _ => 800
     let acct : AccountInfo := ⟨1, 2, false, 500, 0, true, none⟩
     verify_withdrawal mb acct 600 = Except.error AHErr.InsufficientFunds ∧
     verify_withdrawal mb acct 100 = Except.ok 400 ∧
     verify_deposit mb acct (2 ^ 64) = Except.error AHErr.NumericalOverflow ∧
     verify_deposit mb acct 100 = Except.ok 200) := by
  refine ⟨?_, ?_, ?_, ?_⟩
  · exact (verify_withdrawal_deposit_boundary (fun _ => 800) ⟨1, 2, false, 500, 0, true, none⟩ 600).1
      (by decide)
  · exact ((verify_withdrawal_deposit_boundary (fun _ => 800) ⟨1, 2, false, 500, 0, true, none⟩ 100).2.1
      (by decide)).1
  · exact (verify_withdrawal_deposit_boundary (fun _ => 800) ⟨1, 2, false, 500, 0, true, none⟩ (2 ^ 64)).2.2.1
      (by simp [U64])
  · exact ((verify_withdrawal_deposit_boundary (fun _ => 800) ⟨1, 2, false, 500, 0, true, none⟩ 100).2.2.2
      (by simp [U64])).1

/-- C10: get_fee_payer returns the fee account with the auction-house seeds
when the authority signs (regardless of requires_sign_off); otherwise a
signing wallet either hits the sign-off error or pays with empty seeds; with
no signer the call fails with NoPayerPresent. -/
theorem get_fee_payer_selection (authority : AccountInfo)
    (auction_house : AuctionHouse) (wallet fee_account : AccountInfo)
    (seeds : List (List Nat)) :
    (authority.is_signer = true →
      get_fee_payer authority auction_house wallet fee_account seeds
        = Except.ok (fee_account, seeds)) ∧
    (authority.is_signer = false → wallet.is_signer = true →
      auction_house.requires_sign_off = true →
      get_fee_payer authority auction_house wallet fee_account seeds
        = Except.error AHErr.CannotTakeThisActionWithoutAuctionHouseSignOff) ∧
    (authority.is_signer = false → wallet.is_signer = true →
      auction_house.requires_sign_off = false →
      get_fee_payer authority auction_house wallet fee_account seeds
        = Except.ok (wallet, [])) ∧
    (authority.is_signer = false → wallet.is_signer = false →
      get_fee_payer authority auction_house wallet fee_account seeds
        = Except.error AHErr.NoPayerPresent) := by
  refine ⟨?_, ?_, ?_, ?_⟩
  · intro h
    simp [get_fee_payer, h]
  · intro h1 h2 h3
    simp [get_fee_payer, h1, h2, h3]
  · intro h1 h2 h3
    simp [get_fee_payer, h1, h2, h3]
  · intro h1 h2
    simp [get_fee_payer, h1, h2]

/-- C10 witness: with a signing authority and requires_sign_off set, the fee
account and house seeds are returned; with neither party signing the call
fails. -/
theorem get_fee_payer_selection_witness :
    (let ah : AuctionHouse := ⟨9, 10, 200, true, 11, fun _ => false⟩
     let authSigner : AccountInfo := ⟨3, 0, true, 0, 0, true, none⟩
     let silent : AccountInfo := ⟨4, 0, false, 0, 0, true, none⟩
     let feeAcct : AccountInfo := ⟨5, 0, false, 0, 0, true, none⟩
     get_fee_payer authSigner ah silent feeAcct [[1]]
       = Except.ok (feeAcct, [[1]]) ∧
     get_fee_payer silent ah silent feeAcct [[1]]
       = Except.error AHErr.NoPayerPresent) := by
  constructor
  · exact (get_fee_payer_selection ⟨3, 0, true, 0, 0, true, none⟩
      ⟨9, 10, 200, true, 11, fun _ => false⟩ ⟨4, 0, false, 0, 0, true, none⟩
      ⟨5, 0, false, 0, 0, true, none⟩ [[1]]).1 rfl
  · exact (get_fee_payer_selection ⟨4, 0, false, 0, 0, true, none⟩
      ⟨9, 10, 200, true, 11, fun _ => false⟩ ⟨4, 0, false, 0, 0, true, none⟩
      ⟨5, 0, false, 0, 0, true, none⟩ [[1]]).2.2.2 rfl rfl

/-- C6: assert_valid_auctioneer_and_scope checks the three delegation
relationships in order (each mismatch is InvalidAuctioneer), then the
capability bit (unset is MissingAuctioneerScope), succeeding otherwise; and
assert_scopes_eq accepts a list whose bits are all set and fails fast with
MissingAuctioneerScope at the first unset bit. -/
theorem assert_valid_auctioneer_and_scope_spec (ah : AuctionHouse)
    (authority : Pubkey) (pda : Auctioneer) (scope : AuthorityScope) :
    (ah.auctioneer_address ≠ pda.key →
      assert_valid_auctioneer_and_scope ah authority pda scope
        = Except.error AHErr.InvalidAuctioneer) ∧
    (ah.auctioneer_address = pda.key → pda.auctioneer_authority ≠ authority →
      assert_valid_auctioneer_and_scope ah authority pda scope
        = Except.error AHErr.InvalidAuctioneer) ∧
    (ah.auctioneer_address = pda.key → pda.auctioneer_authority = authority →
      pda.auction_house ≠ ah.key →
      assert_valid_auctioneer_and_scope ah authority pda scope
        = Except.error AHErr.InvalidAuctioneer) ∧
    (ah.auctioneer_address = pda.key → pda.auctioneer_authority = authority →
      pda.auction_house = ah.key → ah.scopes scope = false →
      assert_valid_auctioneer_and_scope ah authority pda scope
        = Except.error AHErr.MissingAuctioneerScope) ∧
    (ah.auctioneer_address = pda.key → pda.auctioneer_authority = authority →
      pda.auction_house = ah.key → ah.scopes scope = true →
      assert_valid_auctioneer_and_scope ah authority pda scope
        = Except.ok ()) ∧
    (∀ scopes arr, (∀ s ∈ scopes, arr s = true) →
      assert_scopes_eq scopes arr = Except.ok ()) ∧
    (∀ pre s post arr, (∀ x ∈ pre, arr x = true) → arr s = false →
      assert_scopes_eq (pre ++ s :: post) arr
        = Except.error AHErr.MissingAuctioneerScope) := by
  refine ⟨?_, ?_, ?_, ?_, ?_, ?_, ?_⟩
  · intro h
    simp [assert_valid_auctioneer_and_scope, assert_keys_equal, h]
  · intro h1 h2
    simp [assert_valid_auctioneer_and_scope, assert_keys_equal, h1, h2]
  · intro h1 h2 h3
    simp [assert_valid_auctioneer_and_scope, assert_keys_equal, h1, h2, h3]
  · intro h1 h2 h3 h4
    simp [assert_valid_auctioneer_and_scope, assert_keys_equal, h1, h2, h3, h4]
  · intro h1 h2 h3 h4
    simp [assert_valid_auctioneer_and_scope, assert_keys_equal, h1, h2, h3, h4]
  · intro scopes arr hall
    induction scopes with
    | nil => rfl
    | cons s rest ih =>
      have hs := hall s (List.mem_cons_self s rest)
      simp [assert_scopes_eq, hs]
      exact ih fun x hx => hall x (List.mem_cons_of_mem s hx)
  · intro pre s post arr hpre hs
    induction pre with
    | nil => simp [assert_scopes_eq, hs]
    | cons p rest ih =>
      have hp := hpre p (List.mem_cons_self p rest)
      simp [assert_scopes_eq, hp]
      exact ih fun x hx => hpre x (List.mem_cons_of_mem p hx)

/-- C6 witness: a fully consistent delegation with the required bit set
succeeds; the same configuration with the bit cleared reports the missing
scope; a scope list over a bitmap with one cleared bit fails fast there. -/
theorem assert_valid_auctioneer_and_scope_spec_witness :
    (let okScopes : AuthorityScope → Bool := fun _ => true
     let badScopes : AuthorityScope → Bool := fun s => decide (s.val ≠ 2)
     let ah1 : AuctionHouse := ⟨20, 21, 200, false, 30, okScopes⟩
     let ah2 : AuctionHouse := ⟨20, 21, 200, false, 30, badScopes⟩
     let pda : Auctioneer := ⟨30, 31, 20⟩
     assert_valid_auctioneer_and_scope ah1 31 pda ⟨2, by decide⟩ = Except.ok () ∧
     assert_valid_auctioneer_and_scope ah2 31 pda ⟨2, by decide⟩
       = Except.error AHErr.MissingAuctioneerScope ∧
     assert_scopes_eq [⟨0, by decide⟩, ⟨2, by decide⟩, ⟨1, by decide⟩] badScopes
       = Except.error AHErr.MissingAuctioneerScope) := by
  refine ⟨?_, ?_, ?_⟩
  · exact (assert_valid_auctioneer_and_scope_spec
      ⟨20, 21, 200, false, 30, fun _ => true⟩ 31 ⟨30, 31, 20⟩
      ⟨2, by decide⟩).2.2.2.2.1 rfl rfl rfl rfl
  · exact (assert_valid_auctioneer_and_scope_spec
      ⟨20, 21, 200, false, 30, fun s => decide (s.val ≠ 2)⟩ 31 ⟨30, 31, 20⟩
      ⟨2, by decide⟩).2.2.2.1 rfl rfl rfl (by decide)
  · exact (assert_valid_auctioneer_and_scope_spec
      ⟨20, 21, 200, false, 30, fun s => decide (s.val ≠ 2)⟩ 31 ⟨30, 31, 20⟩
      ⟨2, by decide⟩).2.2.2.2.2.2 [⟨0, by decide⟩] ⟨2, by decide⟩
      [⟨1, by decide⟩] (fun s => decide (s.val ≠ 2))
      (by decide) (by decide)

/-- Program id of the auction-house program (crate::id(); the concrete
32-byte value is immaterial, only propagated to the derivation
collaborator). -/
def auction_house_program_id : Pubkey := 1001

/-- PREFIX seed constant of the auction-house program, as a byte segment. -/
def pfix : List Nat := [97]

/-- Byte segment of an address (Pubkey::as_ref; injective, modelled as a
one-element segment). -/
def pk_bytes (k : Pubkey) : List Nat := [k]

/-- Byte segment of a u64 in little-endian (to_le_bytes; injective, modelled
as a one-element segment). -/
def le_bytes (n : Nat) : List Nat := [n]

/-- assert_derivation: recompute the canonical program address with the
external find_program_address collaborator and compare it with the account's
address; a mismatch is DerivedKeyInvalid, a match returns the canonical
bump. -/
def assert_derivation (find_program_address : List (List Nat) → Pubkey → Pubkey × Nat)
    (program_id : Pubkey) (account_key : Pubkey) (path : List (List Nat)) :
    Except AHErr Nat :=
  let kb := find_program_address path program_id
  if kb.1 = account_key then Except.ok kb.2
  else Except.error AHErr.DerivedKeyInvalid

/-- Seed list of the private ("token holder" keyed) trade-state derivation, in
source order. -/
def private_trade_state_seeds (wallet : Pubkey) (auction_house : AuctionHouse)
    (token_holder mint : Pubkey) (buyer_price token_size : Nat) :
    List (List Nat) :=
  [pfix, pk_bytes wallet, pk_bytes auction_house.key, pk_bytes token_holder,
    pk_bytes auction_house.treasury_mint, pk_bytes mint,
    le_bytes buyer_price, le_bytes token_size]

/-- Seed list of the public trade-state derivation: identical except that the
token-holder segment is omitted. -/
def public_trade_state_seeds (wallet : Pubkey) (auction_house : AuctionHouse)
    (mint : Pubkey) (buyer_price token_size : Nat) : List (List Nat) :=
  [pfix, pk_bytes wallet, pk_bytes auction_house.key,
    pk_bytes auction_house.treasury_mint, pk_bytes mint,
    le_bytes buyer_price, le_bytes token_size]

/-- assert_valid_trade_state: run both canonical derivations against the same
candidate address; accept exactly when one of them matches with a bump equal
to the claimed bump, otherwise DerivedKeyInvalid. -/
def assert_valid_trade_state (find_program_address : List (List Nat) → Pubkey → Pubkey × Nat)
    (wallet : Pubkey) (auction_house : AuctionHouse)
    (buyer_price token_size : Nat) (trade_state : Pubkey)
    (mint token_holder : Pubkey) (ts_bump : Nat) : Except AHErr Nat :=
  let canonical_bump := assert_derivation find_program_address
    auction_house_program_id trade_state
    (private_trade_state_seeds wallet auction_house token_holder mint
      buyer_price token_size)
  let canonical_public_bump := assert_derivation find_program_address
    auction_house_program_id trade_state
    (public_trade_state_seeds wallet auction_house mint buyer_price token_size)
  match canonical_public_bump, canonical_bump with
  | Except.ok pub, Except.error _ =>
    if pub = ts_bump then Except.ok pub else Except.error AHErr.DerivedKeyInvalid
  | Except.error _, Except.ok bump =>
    if bump = ts_bump then Except.ok bump else Except.error AHErr.DerivedKeyInvalid
  | _, _ => Except.error AHErr.DerivedKeyInvalid

/-- C2: for any derivation collaborator, if exactly one of the private/public
canonical derivations matches the candidate trade-state address and its bump
equals the claimed bump, assert_valid_trade_state returns that bump; if
neither matches, or the matching derivation's bump disagrees with the claimed
bump, it fails with DerivedKeyInvalid. -/
theorem assert_valid_trade_state_dual_path
    (fpa : List (List Nat) → Pubkey → Pubkey × Nat) (wallet : Pubkey)
    (ah : AuctionHouse) (buyer_price token_size : Nat) (trade_state : Pubkey)
    (mint token_holder : Pubkey) (ts_bump : Nat) :
    (let priv := fpa (private_trade_state_seeds wallet ah token_holder mint
        buyer_price token_size) auction_house_program_id
     let pub := fpa (public_trade_state_seeds wallet ah mint buyer_price
        token_size) auction_house_program_id
     (priv.1 = trade_state → pub.1 ≠ trade_state → priv.2 = ts_bump →
       assert_valid_trade_state fpa wallet ah buyer_price token_size
         trade_state mint token_holder ts_bump = Except.ok ts_bump) ∧
     (pub.1 = trade_state → priv.1 ≠ trade_state → pub.2 = ts_bump →
       assert_valid_trade_state fpa wallet ah buyer_price token_size
         trade_state mint token_holder ts_bump = Except.ok ts_bump) ∧
     (priv.1 ≠ trade_state → pub.1 ≠ trade_state →
       assert_valid_trade_state fpa wallet ah buyer_price token_size
         trade_state mint token_holder ts_bump
         = Except.error AHErr.DerivedKeyInvalid) ∧
     (priv.1 = trade_state → pub.1 ≠ trade_state → priv.2 ≠ ts_bump →
       assert_valid_trade_state fpa wallet ah buyer_price token_size
         trade_state mint token_holder ts_bump
         = Except.error AHErr.DerivedKeyInvalid) ∧
     (pub.1 = trade_state → priv.1 ≠ trade_state → pub.2 ≠ ts_bump →
       assert_valid_trade_state fpa wallet ah buyer_price token_size
         trade_state mint token_holder ts_bump
         = Except.error AHErr.DerivedKeyInvalid)) := by
  refine ⟨?_, ?_, ?_, ?_, ?_⟩
  · intro h1 h2 h3
    simp [assert_valid_trade_state, assert_derivation, h1, h2, h3]
  · intro h1 h2 h3
    simp [assert_valid_trade_state, assert_derivation, h1, h2, h3]
  · intro h1 h2
    simp [assert_valid_trade_state, assert_derivation, h1, h2]
  · intro h1 h2 h3
    simp [assert_valid_trade_state, assert_derivation, h1, h2, h3]
  · intro h1 h2 h3
    simp [assert_valid_trade_state, assert_derivation, h1, h2, h3]

/-- C2 witness: with a derivation collaborator sending the 8-segment private
seed list to address 77 with bump 255 and the 7-segment public list to 88,
the candidate address 77 with claimed bump 255 is accepted with bump 255,
and the candidate address 5 (matching neither) is rejected with
DerivedKeyInvalid. -/
theorem assert_valid_trade_state_dual_path_witness :
    (let fpa0 : List (List Nat) → Pubkey → Pubkey × Nat :=
       fun seeds _ => (if seeds.length = 8 then 77 else 88, 255)
     let ah0 : AuctionHouse := ⟨40, 41, 200, false, 42, fun _ => true⟩
     assert_valid_trade_state fpa0 7 ah0 10 1 77 50 51 255 = Except.ok 255 ∧
     assert_valid_trade_state fpa0 7 ah0 10 1 5 50 51 255
       = Except.error AHErr.DerivedKeyInvalid) := by
  constructor
  · exact (assert_valid_trade_state_dual_path
      (fun seeds _ => (if seeds.length = 8 then 77 else 88, 255))
      7 ⟨40, 41, 200, false, 42, fun _ => true⟩ 10 1 77 50 51 255).1
      (by decide) (by decide) (by decide)
  · exact (assert_valid_trade_state_dual_path
      (fun seeds _ => (if seeds.length = 8 then 77 else 88, 255))
      7 ⟨40, 41, 200, false, 42, fun _ => true⟩ 10 1 5 50 51 255).2.2.1
      (by decide) (by decide)

/-- One balance transfer issued through invoke_signed (source account,
destination account, lamport or token amount). -/
structure Transfer where
  source : Pubkey
  dest : Pubkey
  amount : Nat
  deriving DecidableEq, Repr

/-- Shared fee formula of pay_auction_house_fees and pay_creator_fees: the
basis-point numerator times the size as u128 (the checked multiplication is
handled by the caller), divided by 10000, then cast back to u64 (a wrapping
cast in the source, hence the reduction modulo U64). -/
def total_fee_amount (fees size : Nat) : Nat :=
  fees * size / 10000 % U64

/-- pay_auction_house_fees: compute the commission from the house's
seller_fee_basis_points with a checked wide multiplication and transfer it
from the escrow to the treasury (the same transfer is issued on both the
token and the native branch); returns the commission. -/
def pay_auction_house_fees (auction_house : AuctionHouse)
    (auction_house_treasury escrow_payment_account : Pubkey) (size : Nat) :
    List Transfer × Except AHErr Nat :=
  let fees := auction_house.seller_fee_basis_points
  if fees * size < U128 then
    let total_fee := total_fee_amount fees size
    ([⟨escrow_payment_account, auction_house_treasury, total_fee⟩],
      Except.ok total_fee)
  else
    ([], Except.error AHErr.NumericalOverflow)

/-- C5: for bps in [0, 10000] and a u64 size, the commission computed by
pay_auction_house_fees equals floor(size * bps / 10000) (the checked wide
multiplication never overflowing there), is at most size, and
is monotonic non-decreasing in both the size and the basis points. -/
theorem pay_auction_house_fees_commission (ah : AuctionHouse)
    (treasury escrow : Pubkey) (size : Nat)
    (hbps : ah.seller_fee_basis_points ≤ 10000) (hsize : size < U64) :
    (pay_auction_house_fees ah treasury escrow size
      = ([⟨escrow, treasury, size * ah.seller_fee_basis_points / 10000⟩],
         Except.ok (size * ah.seller_fee_basis_points / 10000)) ∧
     size * ah.seller_fee_basis_points / 10000 ≤ size ∧
     (∀ bps bps1 size0 size1, bps ≤ bps1 → bps1 ≤ 10000 → size0 ≤ size1 →
       size1 < U64 →
       total_fee_amount bps size0 ≤ total_fee_amount bps1 size1)) := by
  have hle : ∀ b s : Nat, b ≤ 10000 → b * s / 10000 ≤ s := by
    intro b s hb
    calc b * s / 10000 ≤ 10000 * s / 10000 :=
          Nat.div_le_div_right (Nat.mul_le_mul_right s hb)
      _ = s := by omega
  have hmod : ∀ b s : Nat, b ≤ 10000 → s < U64 →
      total_fee_amount b s = b * s / 10000 := by
    intro b s hb hs
    have : b * s / 10000 < U64 := Nat.lt_of_le_of_lt (hle b s hb) hs
    simp [total_fee_amount, Nat.mod_eq_of_lt this]
  refine ⟨?_, ?_, ?_⟩
  · have hmul : ah.seller_fee_basis_points * size < U128 := by
      have h1 : ah.seller_fee_basis_points * size ≤ 10000 * size :=
        Nat.mul_le_mul_right size hbps
      have h3 : 10000 * U64 ≤ U128 := by norm_num [U64, U128]
      nlinarith [h1, hsize, h3]
    rw [Nat.mul_comm size ah.seller_fee_basis_points]
    simp [pay_auction_house_fees, hmul, hmod _ _ hbps hsize]
  · rw [Nat.mul_comm]
    exact hle _ _ hbps
  · intro bps bps1 size0 size1 h1 h2 h3 h4
    rw [hmod bps size0 (Nat.le_trans h1 h2) (Nat.lt_of_le_of_lt h3 h4),
      hmod bps1 size1 h2 h4]
    exact Nat.div_le_div_right (Nat.mul_le_mul h1 h3)

/-- C5 witness: at bps 200 and size 1000 the commission is 20, at most the
size; and the commission at (150, 900) is at most the commission at
(200, 1000). -/
theorem pay_auction_house_fees_commission_witness :
    (let ah : AuctionHouse := ⟨60, 61, 200, false, 62, fun _ => true⟩
     pay_auction_house_fees ah 63 64 1000
       = ([⟨64, 63, 20⟩], Except.ok 20) ∧
     (20 : Nat) ≤ 1000 ∧
     total_fee_amount 150 900 ≤ total_fee_amount 200 1000) := by
  have h := pay_auction_house_fees_commission
    ⟨60, 61, 200, false, 62, fun _ => true⟩ 63 64 1000
    (by decide) (by norm_num [U64])
  refine ⟨?_, by decide, ?_⟩
  · have h1 := h.1
    norm_num at h1 ⊢
    exact h1
  · exact h.2.2 150 200 900 1000 (by decide) (by decide) (by decide)
      (by norm_num [U64])

/-- Address of the SPL token program (spl_token::id(); concrete value
immaterial, only compared for equality). -/
def spl_token_id : Pubkey := 2001

/-- Address of the reserved native-currency (wrapped SOL) mint
(spl_token::native_mint::id()). -/
def native_mint_id : Pubkey := 2002

/-- assert_owned_by: the account must be owned by the given program. -/
def assert_owned_by (account : AccountInfo) (owner : Pubkey) :
    Except AHErr Unit :=
  if account.owner = owner then Except.ok ()
  else Except.error AHErr.IncorrectOwner

/-- assert_initialized: unpack_unchecked must parse (a structural failure
surfaces as the token program's InvalidAccountData program error) and the
parsed account must be initialized. -/
def assert_initialized (account : AccountInfo) : Except AHErr SplAccount :=
  match account.parsed with
  | none => Except.error AHErr.InvalidAccountData
  | some t =>
    if !t.initialized then Except.error AHErr.UninitializedAccount
    else Except.ok t


/-- assert_is_ata: the account must be owned by the token program, parse as an
initialized token account, belong to the wallet, hold the mint, and sit at
the canonical associated-token address for (wallet, mint); the
associated-token derivation is the external collaborator
get_associated_token_address. -/
def assert_is_ata (get_associated_token_address : Pubkey → Pubkey → Pubkey)
    (ata : AccountInfo) (wallet mint : Pubkey) : Except AHErr SplAccount :=
  match assert_owned_by ata spl_token_id with
  | Except.error e => Except.error e
  | Except.ok _ =>
  match assert_initialized ata with
  | Except.error e => Except.error e
  | Except.ok ata_account =>
  match assert_keys_equal ata_account.owner wallet with
  | Except.error e => Except.error e
  | Except.ok _ =>
  match assert_keys_equal ata_account.mint mint with
  | Except.error e => Except.error e
  | Except.ok _ =>
  match assert_keys_equal (get_associated_token_address wallet mint) ata.key with
  | Except.error e => Except.error e
  | Except.ok _ => Except.ok ata_account

/-- assert_valid_delegation: when the source parses as an initialized token
account, the delegated amount must equal the pay size and the delegate must
be the transfer authority (each mismatch an InvalidAccountData program
error), and both source and destination must be canonical associated token
accounts of their wallets for the mint; when the parse fails, the mint must
be the native mint, the source wallet must sign, and both account addresses
must equal their claimed wallets. -/
def assert_valid_delegation (get_associated_token_address : Pubkey → Pubkey → Pubkey)
    (src_account dst_account src_wallet dst_wallet transfer_authority : AccountInfo)
    (mint : Pubkey) (paysize : Nat) : Except AHErr Unit :=
  match spl_unpack src_account with
  | some token_account =>
    if token_account.delegated_amount ≠ paysize then
      Except.error AHErr.InvalidAccountData
    else if token_account.delegate ≠ some transfer_authority.key then
      Except.error AHErr.InvalidAccountData
    else
      match assert_is_ata get_associated_token_address src_account
          src_wallet.key mint with
      | Except.error e => Except.error e
      | Except.ok _ =>
      match assert_is_ata get_associated_token_address dst_account
          dst_wallet.key mint with
      | Except.error e => Except.error e
      | Except.ok _ => Except.ok ()
  | none =>
    if mint ≠ native_mint_id then
      Except.error AHErr.ExpectedSolAccount
    else if !src_wallet.is_signer then
      Except.error AHErr.SOLWalletMustSign
    else
      match assert_keys_equal src_wallet.key src_account.key with
      | Except.error e => Except.error e
      | Except.ok _ =>
      match assert_keys_equal dst_wallet.key dst_account.key with
      | Except.error e => Except.error e
      | Except.ok _ => Except.ok ()

/-- A successful assert_keys_equal means the two addresses are equal. -/
theorem assert_keys_equal_ok {a b : Pubkey} {u : Unit}
    (h : assert_keys_equal a b = Except.ok u) : a = b := by
  by_cases hk : a = b
  · exact hk
  · simp [assert_keys_equal, hk] at h

/-- When assert_is_ata succeeds, the account sits at the canonical
associated-token address of the wallet and mint, belongs to the wallet and
holds the mint. -/
theorem assert_is_ata_ok_shape (gata : Pubkey → Pubkey → Pubkey)
    (ata : AccountInfo) (wallet mint : Pubkey) (t : SplAccount)
    (h : assert_is_ata gata ata wallet mint = Except.ok t) :
    gata wallet mint = ata.key ∧ t.owner = wallet ∧ t.mint = mint := by
  unfold assert_is_ata at h
  split at h
  · simp at h
  · split at h
    · simp at h
    · split at h
      · simp at h
      · split at h
        · simp at h
        · split at h
          · simp at h
          · rename_i x4 a3 h0 x3 ta h1 x2 a2 h2 x1 a1 h3 x0 a0 h4
            simp only [Except.ok.injEq] at h
            subst h
            exact ⟨assert_keys_equal_ok h4, assert_keys_equal_ok h2,
              assert_keys_equal_ok h3⟩

/-- C7: on the token path (source parses as an initialized token account) the
delegated amount must equal the pay size and the delegate must be the
transfer authority, each mismatch an invalid-account-data error, and success
additionally requires both source and destination to pass the canonical
associated-token-account check (so they sit at the derived addresses); on the
native path (parse failure) the mint must be the native mint (else
ExpectedSolAccount), the source wallet must sign (else SOLWalletMustSign),
and the source/destination addresses must equal the claimed wallets (else
PublicKeyMismatch). -/
theorem assert_valid_delegation_paths (gata : Pubkey → Pubkey → Pubkey)
    (src dst srcw dstw auth : AccountInfo) (mint : Pubkey) (paysize : Nat) :
    (let res := assert_valid_delegation gata src dst srcw dstw auth mint paysize
     (∀ t, spl_unpack src = some t →
       (t.delegated_amount ≠ paysize →
         res = Except.error AHErr.InvalidAccountData) ∧
       (t.delegated_amount = paysize → t.delegate ≠ some auth.key →
         res = Except.error AHErr.InvalidAccountData) ∧
       (t.delegated_amount = paysize → t.delegate = some auth.key →
         (res = Except.ok () ↔
           (∃ t1, assert_is_ata gata src srcw.key mint = Except.ok t1) ∧
           (∃ t2, assert_is_ata gata dst dstw.key mint = Except.ok t2))) ∧
       (t.delegated_amount = paysize → t.delegate = some auth.key →
         res = Except.ok () →
         gata srcw.key mint = src.key ∧ gata dstw.key mint = dst.key)) ∧
     (spl_unpack src = none →
       (mint ≠ native_mint_id → res = Except.error AHErr.ExpectedSolAccount) ∧
       (mint = native_mint_id → srcw.is_signer = false →
         res = Except.error AHErr.SOLWalletMustSign) ∧
       (mint = native_mint_id → srcw.is_signer = true → srcw.key ≠ src.key →
         res = Except.error AHErr.PublicKeyMismatch) ∧
       (mint = native_mint_id → srcw.is_signer = true → srcw.key = src.key →
         dstw.key ≠ dst.key → res = Except.error AHErr.PublicKeyMismatch) ∧
       (mint = native_mint_id → srcw.is_signer = true → srcw.key = src.key →
         dstw.key = dst.key → res = Except.ok ()))) := by
  constructor
  · intro t ht
    refine ⟨?_, ?_, ?_, ?_⟩
    · intro hamt
      simp [assert_valid_delegation, ht, hamt]
    · intro hamt hdel
      simp [assert_valid_delegation, ht, hamt, hdel]
    · intro hamt hdel
      cases hs : assert_is_ata gata src srcw.key mint with
      | error e => simp [assert_valid_delegation, ht, hamt, hdel, hs]
      | ok t1 =>
        cases hd : assert_is_ata gata dst dstw.key mint with
        | error e => simp [assert_valid_delegation, ht, hamt, hdel, hs, hd]
        | ok t2 => simp [assert_valid_delegation, ht, hamt, hdel, hs, hd]
    · intro hamt hdel hok
      cases hs : assert_is_ata gata src srcw.key mint with
      | error e => simp [assert_valid_delegation, ht, hamt, hdel, hs] at hok
      | ok t1 =>
        cases hd : assert_is_ata gata dst dstw.key mint with
        | error e => simp [assert_valid_delegation, ht, hamt, hdel, hs, hd] at hok
        | ok t2 =>
          exact ⟨(assert_is_ata_ok_shape gata src srcw.key mint t1 hs).1,
            (assert_is_ata_ok_shape gata dst dstw.key mint t2 hd).1⟩
  · intro ht
    refine ⟨?_, ?_, ?_, ?_, ?_⟩
    · intro hm
      simp [assert_valid_delegation, ht, hm]
    · intro hm hsig
      simp [assert_valid_delegation, ht, hm, hsig]
    · intro hm hsig hkey
      simp [assert_valid_delegation, assert_keys_equal, ht, hm, hsig, hkey]
    · intro hm hsig hkey hkey2
      simp [assert_valid_delegation, assert_keys_equal, ht, hm, hsig, hkey, hkey2]
    · intro hm hsig hkey hkey2
      simp [assert_valid_delegation, assert_keys_equal, ht, hm, hsig, hkey, hkey2]

/-- C7 witness: a native-path call (unparseable source, native mint, signing
source wallet, matching addresses) succeeds; a token-path call whose
delegated amount 5 differs from the pay size 6 fails with the
invalid-account-data error. -/
theorem assert_valid_delegation_paths_witness :
    (let gata0 : Pubkey → Pubkey → Pubkey := fun w m => w + 100 * m
     let srcN : AccountInfo := ⟨7, 0, false, 0, 0, true, none⟩
     let srcwN : AccountInfo := ⟨7, 0, true, 0, 0, true, none⟩
     let dstN : AccountInfo := ⟨8, 0, false, 0, 0, true, none⟩
     let dstwN : AccountInfo := ⟨8, 0, false, 0, 0, true, none⟩
     let auth : AccountInfo := ⟨9, 0, false, 0, 0, true, none⟩
     let srcT : AccountInfo :=
       ⟨7, spl_token_id, false, 0, 165, false, some ⟨3, 4, some 9, 5, true⟩⟩
     assert_valid_delegation gata0 srcN dstN srcwN dstwN auth native_mint_id 6
       = Except.ok () ∧
     assert_valid_delegation gata0 srcT dstN srcwN dstwN auth native_mint_id 6
       = Except.error AHErr.InvalidAccountData) := by
  constructor
  · exact ((assert_valid_delegation_paths (fun w m => w + 100 * m)
      ⟨7, 0, false, 0, 0, true, none⟩ ⟨8, 0, false, 0, 0, true, none⟩
      ⟨7, 0, true, 0, 0, true, none⟩ ⟨8, 0, false, 0, 0, true, none⟩
      ⟨9, 0, false, 0, 0, true, none⟩ native_mint_id 6).2 (by decide)).2.2.2.2
      rfl rfl rfl rfl
  · exact ((assert_valid_delegation_paths (fun w m => w + 100 * m)
      ⟨7, spl_token_id, false, 0, 165, false, some ⟨3, 4, some 9, 5, true⟩⟩
      ⟨8, 0, false, 0, 0, true, none⟩ ⟨7, 0, true, 0, 0, true, none⟩
      ⟨8, 0, false, 0, 0, true, none⟩ ⟨9, 0, false, 0, 0, true, none⟩
      native_mint_id 6).1 ⟨3, 4, some 9, 5, true⟩ (by decide)).1 (by decide)

/-- Royalty recipient entry of the asset metadata
(mpl_token_metadata::state::Creator; share is a u8 percentage). -/
structure Creator where
  address : Pubkey
  verified : Bool
  share : Nat
  deriving DecidableEq, Repr

/-- Metadata fields read by the embedded code: the string lengths checked by
assert_data_valid, the royalty basis points, and the optional ordered creator
list (the borsh deserialization of the account is an external
collaborator). -/
structure MetadataData where
  name_len : Nat
  symbol_len : Nat
  uri_len : Nat
  seller_fee_basis_points : Nat
  creators : Option (List Creator)
  deriving DecidableEq, Repr

/-- Per-creator royalty fee of pay_creator_fees: share times total fee as
u128 (the checked multiplication is handled at the call site), divided by
100, cast back to u64 (wrapping cast, hence modulo U64). -/
def creator_fee_amount (share total_fee : Nat) : Nat :=
  share * total_fee / 100 % U64

/-- Royalty loop of pay_creator_fees (one iteration per creator of the
metadata list, consuming the remaining-accounts cursor): compute the
creator's fee with a checked wide multiplication, subtract it from the
remaining fee (checked, underflow is NumericalOverflow), take the creator
account from the cursor and require its address to match, then on the token
branch take the creator's token account, create it when empty (make_ata, an
external collaborator modelled by the post-state mk_ata) and require it to
be the canonical associated token account, transferring the fee there when
positive; on the native branch transfer the fee to the creator account when
positive. Returns the accumulated transfer list and, on success, the final
remaining fee. -/
def pay_creator_loop (gata : Pubkey → Pubkey → Pubkey)
    (mk_ata : AccountInfo → AccountInfo)
    (escrow_payment_account treasury_mint : Pubkey) (is_native : Bool)
    (total_fee : Nat) :
    List Creator → List AccountInfo → Nat → List Transfer →
    List Transfer × Except AHErr Nat
  | [], _, remaining_fee, trace => (trace, Except.ok remaining_fee)
  | creator :: rest, accounts, remaining_fee, trace =>
    if creator.share * total_fee < U128 then
      let creator_fee := creator_fee_amount creator.share total_fee
      if creator_fee ≤ remaining_fee then
        match accounts with
        | [] => (trace, Except.error AHErr.NotEnoughAccountKeys)
        | current_creator_info :: accounts1 =>
          if creator.address = current_creator_info.key then
            if !is_native then
              match accounts1 with
              | [] => (trace, Except.error AHErr.NotEnoughAccountKeys)
              | token_account_info :: accounts2 =>
                let token_acct :=
                  if token_account_info.data_empty then mk_ata token_account_info
                  else token_account_info
                match assert_is_ata gata token_acct creator.address treasury_mint with
                | Except.error e => (trace, Except.error e)
                | Except.ok _ =>
                  pay_creator_loop gata mk_ata escrow_payment_account
                    treasury_mint is_native total_fee rest accounts2
                    (remaining_fee - creator_fee)
                    (if 0 < creator_fee then
                      trace ++ [⟨escrow_payment_account, token_acct.key, creator_fee⟩]
                     else trace)
            else
              pay_creator_loop gata mk_ata escrow_payment_account treasury_mint
                is_native total_fee rest accounts1 (remaining_fee - creator_fee)
                (if 0 < creator_fee then
                  trace ++ [⟨escrow_payment_account, current_creator_info.key, creator_fee⟩]
                 else trace)
          else (trace, Except.error AHErr.PublicKeyMismatch)
      else (trace, Except.error AHErr.NumericalOverflow)
    else (trace, Except.error AHErr.NumericalOverflow)

/-- pay_creator_fees: compute the total royalty from the metadata's
seller_fee_basis_points with a checked wide multiplication, the remaining
size by checked subtraction from the sale size, run the royalty loop over the
creator list (no-op when the metadata lists no creators), and return the dust
— remaining size plus the fee left after the per-creator floor divisions —
by checked addition. -/
def pay_creator_fees (gata : Pubkey → Pubkey → Pubkey)
    (mk_ata : AccountInfo → AccountInfo) (metadata : MetadataData)
    (remaining_accounts : List AccountInfo)
    (escrow_payment_account treasury_mint : Pubkey) (size : Nat)
    (is_native : Bool) : List Transfer × Except AHErr Nat :=
  let fees := metadata.seller_fee_basis_points
  if fees * size < U128 then
    let total_fee := total_fee_amount fees size
    if total_fee ≤ size then
      let remaining_size := size - total_fee
      let looped :=
        match metadata.creators with
        | some creators =>
          pay_creator_loop gata mk_ata escrow_payment_account treasury_mint
            is_native total_fee creators remaining_accounts total_fee []
        | none => ([], Except.ok total_fee)
      match looped with
      | (trace, Except.ok remaining_fee) =>
        if remaining_size + remaining_fee < U64 then
          (trace, Except.ok (remaining_size + remaining_fee))
        else
          (trace, Except.error AHErr.NumericalOverflow)
      | other => other
    else
      ([], Except.error AHErr.NumericalOverflow)
  else
    ([], Except.error AHErr.NumericalOverflow)

/-- C8: concrete settlement arithmetic. At size 1,000,000 the commission at
200 bps is 20,000 (deducted against the full size); at 500 royalty bps the
total royalty is 50,000, recipients with shares 60 and 40 receive 30,000 and
20,000 leaving remaining_fee 0, the remaining size is 950,000 and the seller
remainder (dust) is 950,000. At size 101 with 10,000 royalty bps the total
royalty is 101; shares 33, 33, 34 yield fees 33, 33, 34, remaining_fee 1,
remaining size 0, and dust 1 returned to the seller. -/
theorem settlement_concrete_scenarios :
    (pay_auction_house_fees ⟨1, 2, 200, false, 3, fun _ => true⟩ 70 71 1000000
      = ([⟨71, 70, 20000⟩], Except.ok 20000)) ∧
    total_fee_amount 500 1000000 = 50000 ∧
    1000000 - total_fee_amount 500 1000000 = 950000 ∧
    pay_creator_fees (fun w _ => w) (fun a => a)
      ⟨1, 1, 1, 500, some [⟨11, true, 60⟩, ⟨12, true, 40⟩]⟩
      [⟨11, 0, false, 0, 0, true, none⟩, ⟨12, 0, false, 0, 0, true, none⟩]
      90 91 1000000 true
      = ([⟨90, 11, 30000⟩, ⟨90, 12, 20000⟩], Except.ok 950000) ∧
    total_fee_amount 10000 101 = 101 ∧
    pay_creator_fees (fun w _ => w) (fun a => a)
      ⟨1, 1, 1, 10000, some [⟨11, true, 33⟩, ⟨12, true, 33⟩, ⟨13, true, 34⟩]⟩
      [⟨11, 0, false, 0, 0, true, none⟩, ⟨12, 0, false, 0, 0, true, none⟩,
        ⟨13, 0, false, 0, 0, true, none⟩]
      90 91 101 true
      = ([⟨90, 11, 33⟩, ⟨90, 12, 33⟩, ⟨90, 13, 34⟩], Except.ok 1) := by
  refine ⟨rfl, rfl, rfl, rfl, rfl, rfl⟩

/-- C9: when the metadata lists no creators, pay_creator_fees issues no
transfer and returns the full size as dust (the computed royalty is folded
back into the remainder), for every size and basis points for which the
checked arithmetic succeeds. -/
theorem pay_creator_fees_no_creators (gata : Pubkey → Pubkey → Pubkey)
    (mk_ata : AccountInfo → AccountInfo) (metadata : MetadataData)
    (accounts : List AccountInfo) (escrow tmint : Pubkey) (size : Nat)
    (is_native : Bool) (hnone : metadata.creators = none)
    (hfees : metadata.seller_fee_basis_points < 65536) (hsize : size < U64)
    (hsub : total_fee_amount metadata.seller_fee_basis_points size ≤ size) :
    pay_creator_fees gata mk_ata metadata accounts escrow tmint size is_native
      = ([], Except.ok size) := by
  have hmul : metadata.seller_fee_basis_points * size < U128 := by
    have h3 : (65536 : Nat) * U64 ≤ U128 := by norm_num [U64, U128]
    nlinarith [hfees, hsize, h3]
  have hcancel : size - total_fee_amount metadata.seller_fee_basis_points size
      + total_fee_amount metadata.seller_fee_basis_points size = size :=
    Nat.sub_add_cancel hsub
  simp [pay_creator_fees, hnone, hmul, hsub, hcancel, hsize]

/-- C9 witness: 500 bps on size 1000 with no creators returns the full 1000
as dust with no transfers. -/
theorem pay_creator_fees_no_creators_witness :
    pay_creator_fees (fun w _ => w) (fun a => a) ⟨1, 1, 1, 500, none⟩ [] 90 91
      1000 true = ([], Except.ok 1000) := by
  exact pay_creator_fees_no_creators (fun w _ => w) (fun a => a)
    ⟨1, 1, 1, 500, none⟩ [] 90 91 1000 true rfl (by decide)
    (by norm_num [U64]) (by norm_num [total_fee_amount, U64])

/-- Maximum metadata name length (token-metadata state module constant). -/
def MAX_NAME_LENGTH : Nat := 32

/-- Maximum metadata symbol length (token-metadata state module constant). -/
def MAX_SYMBOL_LENGTH : Nat := 10

/-- Maximum metadata uri length (token-metadata state module constant). -/
def MAX_URI_LENGTH : Nat := 200

/-- Maximum number of creators (token-metadata state module constant). -/
def MAX_CREATOR_LIMIT : Nat := 5

/-- Per-creator verified-flag rules of the assert_data_valid loop: direct
writes skip the check, a signing update authority may toggle its own flag,
otherwise the flag must agree with the existing creators array and can never
be newly set. -/
def creator_verified_check (update_authority : Pubkey)
    (existing_creators : Option (List Creator))
    (allow_direct_creator_writes update_authority_is_signer : Bool)
    (creator : Creator) : Except MErr Unit :=
  if allow_direct_creator_writes then Except.ok ()
  else if update_authority_is_signer && (creator.address == update_authority) then
    Except.ok ()
  else
    match existing_creators with
    | some existing =>
      match existing.find? (fun e => e.address == creator.address) with
      | some existing_creator =>
        if creator.verified && !existing_creator.verified then
          Except.error MErr.CannotVerifyAnotherCreator
        else if !creator.verified && existing_creator.verified then
          Except.error MErr.CannotUnverifyAnotherCreator
        else Except.ok ()
      | none =>
        if creator.verified then Except.error MErr.CannotVerifyAnotherCreator
        else Except.ok ()
    | none =>
      if creator.verified then Except.error MErr.CannotVerifyAnotherCreator
      else Except.ok ()

/-- Creator loop of assert_data_valid: accumulate the share total with
checked u8 additions (overflow is NumericalOverflowError) and apply the
verified-flag rules to each creator; the source iterates the deduplicated
creator map, whose entries are exactly the (duplicate-free) list entries, so
the model iterates the list. -/
def creators_loop (update_authority : Pubkey)
    (existing_creators : Option (List Creator))
    (allow_direct_creator_writes update_authority_is_signer : Bool) :
    List Creator → Nat → Except MErr Nat
  | [], share_total => Except.ok share_total
  | creator :: rest, share_total =>
    if share_total + creator.share < 256 then
      match creator_verified_check update_authority existing_creators
          allow_direct_creator_writes update_authority_is_signer creator with
      | Except.error e => Except.error e
      | Except.ok _ =>
        creators_loop update_authority existing_creators
          allow_direct_creator_writes update_authority_is_signer rest
          (share_total + creator.share)
    else Except.error MErr.NumericalOverflowError

/-- Trailing check of assert_data_valid: an existing verified creator absent
from the new list cannot be silently unverified, except by a signing update
authority for its own entry. -/
def existing_creators_check (update_authority : Pubkey)
    (new_creators : List Creator) (update_authority_is_signer : Bool) :
    List Creator → Except MErr Unit
  | [] => Except.ok ()
  | existing_creator :: rest =>
    if update_authority_is_signer && (existing_creator.address == update_authority) then
      existing_creators_check update_authority new_creators
        update_authority_is_signer rest
    else if (new_creators.find? (fun c => c.address == existing_creator.address)).isNone
        && existing_creator.verified then
      Except.error MErr.CannotUnverifyAnotherCreator
    else
      existing_creators_check update_authority new_creators
        update_authority_is_signer rest

/-- assert_data_valid (token-metadata): bound the name/symbol/uri lengths and
the basis points, and for a present creator list check the length bounds,
reject duplicates (the source detects them by comparing the deduplicated map
size with the list length), run the creator loop, require the share total to
be exactly 100, and finally check existing verified creators; metadata with
no creator list passes. -/
def assert_data_valid (data : MetadataData) (update_authority : Pubkey)
    (existing_creators : Option (List Creator))
    (allow_direct_creator_writes update_authority_is_signer : Bool) :
    Except MErr Unit :=
  if MAX_NAME_LENGTH < data.name_len then Except.error MErr.NameTooLong
  else if MAX_SYMBOL_LENGTH < data.symbol_len then Except.error MErr.SymbolTooLong
  else if MAX_URI_LENGTH < data.uri_len then Except.error MErr.UriTooLong
  else if 10000 < data.seller_fee_basis_points then
    Except.error MErr.InvalidBasisPoints
  else
    match data.creators with
    | none => Except.ok ()
    | some creators =>
      if MAX_CREATOR_LIMIT < creators.length then Except.error MErr.CreatorsTooLong
      else if creators.isEmpty then Except.error MErr.CreatorsMustBeAtleastOne
      else if ¬ (creators.map Creator.address).Nodup then
        Except.error MErr.DuplicateCreatorAddress
      else
        match creators_loop update_authority existing_creators
            allow_direct_creator_writes update_authority_is_signer creators 0 with
        | Except.error e => Except.error e
        | Except.ok share_total =>
          if share_total ≠ 100 then Except.error MErr.ShareTotalMustBe100
          else if allow_direct_creator_writes then Except.ok ()
          else
            match existing_creators with
            | some existing =>
              existing_creators_check update_authority creators
                update_authority_is_signer existing
            | none => Except.ok ()

/-- A successful creators_loop returns the accumulator plus the share sum of
the list. -/
theorem creators_loop_ok_sum (update_authority : Pubkey)
    (existing_creators : Option (List Creator))
    (allow_direct_creator_writes update_authority_is_signer : Bool) :
    ∀ (cs : List Creator) (acc total : Nat),
      creators_loop update_authority existing_creators
        allow_direct_creator_writes update_authority_is_signer cs acc
        = Except.ok total →
      total = acc + (cs.map Creator.share).sum := by
  intro cs
  induction cs with
  | nil =>
    intro acc total h
    simp [creators_loop] at h
    simp [h]
  | cons c rest ih =>
    intro acc total h
    simp only [creators_loop] at h
    split at h
    · split at h
      · simp at h
      · have := ih (acc + c.share) total h
        simp [this]
        omega
    · simp at h

/-- C3 counterexample: a single recipient with share 101 (sum 101, not 100)
is not rejected by the settlement at size 50 and 10,000 royalty bps — the
royalty loop's floor division absorbs the excess (fee 50 = floor(101*50/100)
equals the total royalty), the recipient is paid 50 by a transfer, and
pay_creator_fees returns dust 0 with no error. -/
theorem pay_creator_fees_accepts_bad_share_sum :
    (([⟨11, true, 101⟩] : List Creator).map Creator.share).sum ≠ 100 ∧
    pay_creator_fees (fun w _ => w) (fun a => a)
      ⟨1, 1, 1, 10000, some [⟨11, true, 101⟩]⟩
      [⟨11, 0, false, 0, 0, true, none⟩] 90 91 50 true
      = ([⟨90, 11, 50⟩], Except.ok 0) := by
  exact ⟨by decide, rfl⟩

/-- C3 (amended): a recipient list whose shares do not sum to exactly 100 is
rejected at metadata-validation time by assert_data_valid, before settlement
can see it; pay_creator_fees itself does not reject every such list. -/
theorem invalid_share_sum_rejected_at_validation (data : MetadataData)
    (update_authority : Pubkey) (existing_creators : Option (List Creator))
    (allow_direct_creator_writes update_authority_is_signer : Bool)
    (creators : List Creator) (hcr : data.creators = some creators)
    (hsum : (creators.map Creator.share).sum ≠ 100) :
    ∃ e, assert_data_valid data update_authority existing_creators
      allow_direct_creator_writes update_authority_is_signer
      = Except.error e := by
  unfold assert_data_valid
  split
  · exact ⟨_, rfl⟩
  split
  · exact ⟨_, rfl⟩
  split
  · exact ⟨_, rfl⟩
  split
  · exact ⟨_, rfl⟩
  split
  · rename_i x heq
    rw [hcr] at heq
    simp at heq
  · rename_i x cs2 heq
    rw [hcr] at heq
    injection heq with heq2
    subst heq2
    split
    · exact ⟨_, rfl⟩
    split
    · exact ⟨_, rfl⟩
    split
    · exact ⟨_, rfl⟩
    cases hl : creators_loop update_authority existing_creators
        allow_direct_creator_writes update_authority_is_signer creators 0 with
    | error e => simp [hl]
    | ok share_total =>
      have htot := creators_loop_ok_sum update_authority existing_creators
        allow_direct_creator_writes update_authority_is_signer creators 0
        share_total hl
      have hne : ¬ share_total = 100 := by omega
      simp [hl, hne]

/-- C3 witness: shares 50 and 49 (sum 99) are rejected by assert_data_valid
for every configuration, here with direct creator writes allowed. -/
theorem invalid_share_sum_rejected_at_validation_witness :
    ∃ e, assert_data_valid
      ⟨1, 1, 1, 100, some [⟨1, false, 50⟩, ⟨2, false, 49⟩]⟩ 5 none true true
      = Except.error e := by
  exact invalid_share_sum_rejected_at_validation
    ⟨1, 1, 1, 100, some [⟨1, false, 50⟩, ⟨2, false, 49⟩]⟩ 5 none true true
    [⟨1, false, 50⟩, ⟨2, false, 49⟩] rfl (by decide)

/-- Summing the transfer amounts after conditionally appending a fee
transfer adds exactly the fee (a zero fee appends nothing). -/
theorem trace_if_sum (trace : List Transfer) (src dst fee : Nat) :
    (((if 0 < fee then trace ++ [⟨src, dst, fee⟩] else trace).map
      Transfer.amount).sum) = (trace.map Transfer.amount).sum + fee := by
  split
  · simp
  · rename_i hf
    simp
    omega

/-- A successful royalty loop never increases its remaining fee, and the
amounts it transfers account exactly for the fee it consumed. -/
theorem pay_creator_loop_ok_sum (gata : Pubkey → Pubkey → Pubkey)
    (mk_ata : AccountInfo → AccountInfo) (escrow tmint : Pubkey)
    (is_native : Bool) (total_fee : Nat) :
    ∀ (cs : List Creator) (accounts : List AccountInfo) (remaining_fee : Nat)
      (trace trace1 : List Transfer) (rem1 : Nat),
      pay_creator_loop gata mk_ata escrow tmint is_native total_fee cs
        accounts remaining_fee trace = (trace1, Except.ok rem1) →
      rem1 ≤ remaining_fee ∧
      (trace1.map Transfer.amount).sum + rem1
        = (trace.map Transfer.amount).sum + remaining_fee := by
  intro cs
  induction cs with
  | nil =>
    intro accounts rf trace trace1 rem1 h
    simp only [pay_creator_loop, Prod.mk.injEq, Except.ok.injEq] at h
    obtain ⟨h1, h2⟩ := h
    subst h1
    subst h2
    exact ⟨Nat.le_refl _, rfl⟩
  | cons c rest ih =>
    intro accounts rf trace trace1 rem1 h
    simp only [pay_creator_loop] at h
    split at h
    case isFalse => simp at h
    case isTrue hmul =>
    split at h
    case isFalse => simp at h
    case isTrue hfee =>
    split at h
    case h_1 => simp at h
    case h_2 cinfo accounts1 =>
    split at h
    case isFalse => simp at h
    case isTrue hkey =>
    split at h
    case isTrue hnat =>
      split at h
      case h_1 => simp at h
      case h_2 tok accounts2 =>
      split at h
      case h_1 => simp at h
      case h_2 =>
        obtain ⟨hr1, hr2⟩ := ih _ _ _ _ _ h
        rw [trace_if_sum] at hr2
        exact ⟨by omega, by omega⟩
    case isFalse hnat =>
      obtain ⟨hr1, hr2⟩ := ih _ _ _ _ _ h
      rw [trace_if_sum] at hr2
      exact ⟨by omega, by omega⟩

/-- assert_is_ata only fails with ownership, initialization or key-mismatch
errors, never with NumericalOverflow. -/
theorem assert_is_ata_error_kinds (gata : Pubkey → Pubkey → Pubkey)
    (a : AccountInfo) (wallet mint : Pubkey) (e : AHErr)
    (h : assert_is_ata gata a wallet mint = Except.error e) :
    e ≠ AHErr.NumericalOverflow := by
  unfold assert_is_ata assert_owned_by assert_initialized assert_keys_equal at h
  repeat' split at h
  all_goals try simp_all
  all_goals rename_i heq
  all_goals repeat' split at heq
  all_goals try simp_all
  all_goals subst heq
  all_goals simp

/-- Floor division by 100 is superadditive in the numerator. -/
theorem add_div_le_100 (a b : Nat) : a / 100 + b / 100 ≤ (a + b) / 100 := by
  rw [Nat.le_div_iff_mul_le (by norm_num : (0 : Nat) < 100)]
  have h1 := Nat.div_mul_le_self a 100
  have h2 := Nat.div_mul_le_self b 100
  calc (a / 100 + b / 100) * 100 = a / 100 * 100 + b / 100 * 100 := by ring
    _ ≤ a + b := Nat.add_le_add h1 h2

/-- The royalty loop never fails with NumericalOverflow when each share is at
most 100 and the floored fee of the whole share sum fits in the remaining
fee: the checked wide multiplications and the checked subtraction always
succeed then, whatever the account list. -/
theorem pay_creator_loop_no_overflow (gata : Pubkey → Pubkey → Pubkey)
    (mk_ata : AccountInfo → AccountInfo) (escrow tmint : Pubkey)
    (is_native : Bool) (total_fee : Nat) (htf : total_fee < U64) :
    ∀ (cs : List Creator) (accounts : List AccountInfo) (remaining_fee : Nat)
      (trace : List Transfer),
      (∀ c ∈ cs, c.share ≤ 100) →
      (cs.map Creator.share).sum * total_fee / 100 ≤ remaining_fee →
      (pay_creator_loop gata mk_ata escrow tmint is_native total_fee cs
        accounts remaining_fee trace).2 ≠ Except.error AHErr.NumericalOverflow := by
  intro cs
  induction cs with
  | nil =>
    intro accounts rf trace h1 h2
    simp [pay_creator_loop]
  | cons c rest ih =>
    intro accounts rf trace hsh hsum
    have hc : c.share ≤ 100 := hsh c (List.mem_cons_self c rest)
    have hsh2 : ∀ x ∈ rest, x.share ≤ 100 := fun x hx =>
      hsh x (List.mem_cons_of_mem c hx)
    have hfee_lt : c.share * total_fee / 100 < U64 := by
      have h1 : c.share * total_fee / 100 ≤ 100 * total_fee / 100 :=
        Nat.div_le_div_right (Nat.mul_le_mul_right total_fee hc)
      have h2 : 100 * total_fee / 100 = total_fee := by omega
      omega
    have hcf_eq : creator_fee_amount c.share total_fee
        = c.share * total_fee / 100 := by
      simp [creator_fee_amount, Nat.mod_eq_of_lt hfee_lt]
    have hmul : c.share * total_fee < U128 := by
      have hb : c.share * total_fee ≤ 100 * total_fee :=
        Nat.mul_le_mul_right total_fee hc
      have h100 : (100 : Nat) * U64 < U128 := by norm_num [U64, U128]
      nlinarith [htf]
    have hS := add_div_le_100 (c.share * total_fee)
      ((rest.map Creator.share).sum * total_fee)
    rw [← Nat.add_mul] at hS
    simp only [List.map_cons, List.sum_cons] at hsum
    simp only [pay_creator_loop]
    split
    case isFalse hm => exact absurd hmul hm
    case isTrue hm =>
    split
    case isFalse hf => exact absurd (by rw [hcf_eq]; omega) hf
    case isTrue hf =>
    split
    case h_1 => simp
    case h_2 cinfo accounts1 =>
    split
    case isFalse hk => simp
    case isTrue hk =>
    have hbound : (rest.map Creator.share).sum * total_fee / 100
        ≤ rf - creator_fee_amount c.share total_fee := by
      rw [hcf_eq]
      omega
    split
    case isTrue hn =>
      split
      case h_1 => simp
      case h_2 tok accounts2 =>
      split
      case h_1 e heq =>
        have hkind := assert_is_ata_error_kinds gata
          (if tok.data_empty then mk_ata tok else tok) c.address tmint e heq
        simpa using hkind
      case h_2 val heq =>
        exact ih accounts2 (rf - creator_fee_amount c.share total_fee) _ hsh2 hbound
    case isFalse hn =>
      exact ih accounts1 (rf - creator_fee_amount c.share total_fee) _ hsh2 hbound

/-- C1: for every u64 size, royalty basis points in [0, 10000] and recipient
list whose shares sum to exactly 100, pay_creator_fees conserves the split
exactly — whenever it completes, the total royalty equals the transferred
recipient fees plus the final remaining fee, the size equals the total
royalty plus the remaining size, and the returned dust equals remaining size
plus remaining fee — and its checked arithmetic never aborts with
NumericalOverflow, so no rounding remainder is silently dropped. -/
theorem pay_creator_fees_conservation (gata : Pubkey → Pubkey → Pubkey)
    (mk_ata : AccountInfo → AccountInfo) (metadata : MetadataData)
    (accounts : List AccountInfo) (escrow tmint : Pubkey) (size : Nat)
    (is_native : Bool) (creators : List Creator)
    (hbps : metadata.seller_fee_basis_points ≤ 10000) (hsize : size < U64)
    (hcr : metadata.creators = some creators)
    (hsum : (creators.map Creator.share).sum = 100) :
    (∀ trace dust,
      pay_creator_fees gata mk_ata metadata accounts escrow tmint size
        is_native = (trace, Except.ok dust) →
      ∃ remaining_fee,
        total_fee_amount metadata.seller_fee_basis_points size
          = (trace.map Transfer.amount).sum + remaining_fee ∧
        size = total_fee_amount metadata.seller_fee_basis_points size
          + (size - total_fee_amount metadata.seller_fee_basis_points size) ∧
        dust = (size - total_fee_amount metadata.seller_fee_basis_points size)
          + remaining_fee) ∧
    (pay_creator_fees gata mk_ata metadata accounts escrow tmint size
      is_native).2 ≠ Except.error AHErr.NumericalOverflow := by
  have hmul : metadata.seller_fee_basis_points * size < U128 := by
    have h3 : (10000 : Nat) * U64 ≤ U128 := by norm_num [U64, U128]
    nlinarith [hbps, hsize, h3]
  have hq : metadata.seller_fee_basis_points * size / 10000 ≤ size := by
    have h1 : metadata.seller_fee_basis_points * size ≤ 10000 * size :=
      Nat.mul_le_mul_right size hbps
    have h2 : 10000 * size / 10000 = size := by omega
    have h3 := Nat.div_le_div_right (c := 10000) h1
    omega
  have htf_eq : total_fee_amount metadata.seller_fee_basis_points size
      = metadata.seller_fee_basis_points * size / 10000 := by
    simp [total_fee_amount, Nat.mod_eq_of_lt (Nat.lt_of_le_of_lt hq hsize)]
  have htfle : total_fee_amount metadata.seller_fee_basis_points size ≤ size := by
    omega
  have htflt : total_fee_amount metadata.seller_fee_basis_points size < U64 := by
    omega
  have hsh : ∀ c ∈ creators, c.share ≤ 100 := by
    intro c hc
    have hmem : c.share ∈ creators.map Creator.share :=
      List.mem_map_of_mem Creator.share hc
    have := List.single_le_sum (fun x _ => Nat.zero_le x) c.share hmem
    omega
  have hfull : (creators.map Creator.share).sum
      * total_fee_amount metadata.seller_fee_basis_points size / 100
      ≤ total_fee_amount metadata.seller_fee_basis_points size := by
    rw [hsum]
    omega
  constructor
  · intro trace dust h
    simp only [pay_creator_fees, hcr] at h
    rw [if_pos hmul, if_pos htfle] at h
    cases hl : pay_creator_loop gata mk_ata escrow tmint is_native
        (total_fee_amount metadata.seller_fee_basis_points size) creators
        accounts (total_fee_amount metadata.seller_fee_basis_points size) []
        with
    | mk tr0 res0 =>
      rw [hl] at h
      cases res0 with
      | error e => simp at h
      | ok rem =>
        obtain ⟨hrle, hrsum⟩ := pay_creator_loop_ok_sum gata mk_ata escrow
          tmint is_native (total_fee_amount metadata.seller_fee_basis_points size)
          creators accounts (total_fee_amount metadata.seller_fee_basis_points size)
          [] tr0 rem hl
        have hfit : size - total_fee_amount metadata.seller_fee_basis_points size
            + rem < U64 := by omega
        simp only [hfit, if_true, Prod.mk.injEq, Except.ok.injEq] at h
        obtain ⟨h1, h2⟩ := h
        subst h1
        refine ⟨rem, ?_, by omega, by omega⟩
        simp only [List.map_nil, List.sum_nil, Nat.zero_add] at hrsum
        omega
  · simp only [pay_creator_fees, hcr]
    rw [if_pos hmul, if_pos htfle]
    cases hl : pay_creator_loop gata mk_ata escrow tmint is_native
        (total_fee_amount metadata.seller_fee_basis_points size) creators
        accounts (total_fee_amount metadata.seller_fee_basis_points size) []
        with
    | mk tr0 res0 =>
      cases res0 with
      | error e =>
        have hno := pay_creator_loop_no_overflow gata mk_ata escrow tmint
          is_native (total_fee_amount metadata.seller_fee_basis_points size)
          htflt creators accounts
          (total_fee_amount metadata.seller_fee_basis_points size) [] hsh hfull
        rw [hl] at hno
        simpa using hno
      | ok rem =>
        obtain ⟨hrle, hrsum⟩ := pay_creator_loop_ok_sum gata mk_ata escrow
          tmint is_native (total_fee_amount metadata.seller_fee_basis_points size)
          creators accounts (total_fee_amount metadata.seller_fee_basis_points size)
          [] tr0 rem hl
        have hfit : size - total_fee_amount metadata.seller_fee_basis_points size
            + rem < U64 := by omega
        simp [hfit]

/-- C1 witness: size 1000, 1000 royalty bps, shares 70 and 30 — the call
completes with transfers 70 and 30, remaining fee 0, total royalty 100 and
dust 900, satisfying all three conservation equations. -/
theorem pay_creator_fees_conservation_witness :
    (∃ remaining_fee,
      total_fee_amount 1000 1000
        = (([⟨90, 21, 70⟩, ⟨90, 22, 30⟩] : List Transfer).map
            Transfer.amount).sum + remaining_fee ∧
      1000 = total_fee_amount 1000 1000 + (1000 - total_fee_amount 1000 1000) ∧
      900 = (1000 - total_fee_amount 1000 1000) + remaining_fee) ∧
    (pay_creator_fees (fun w _ => w) (fun a => a)
      ⟨1, 1, 1, 1000, some [⟨21, true, 70⟩, ⟨22, true, 30⟩]⟩
      [⟨21, 0, false, 0, 0, true, none⟩, ⟨22, 0, false, 0, 0, true, none⟩]
      90 91 1000 true).2 ≠ Except.error AHErr.NumericalOverflow := by
  have h := pay_creator_fees_conservation (fun w _ => w) (fun a => a)
    ⟨1, 1, 1, 1000, some [⟨21, true, 70⟩, ⟨22, true, 30⟩]⟩
    [⟨21, 0, false, 0, 0, true, none⟩, ⟨22, 0, false, 0, 0, true, none⟩]
    90 91 1000 true [⟨21, true, 70⟩, ⟨22, true, 30⟩]
    (by decide) (by norm_num [U64]) rfl (by decide)
  exact ⟨h.1 [⟨90, 21, 70⟩, ⟨90, 22, 30⟩] 900 rfl, h.2⟩
